import Mathlib

/-!
Shallow embedding of the beverage-factory model (`boisson.py`, `usine.py`).

Conventions of the embedding:
* Python `float` quantities are modelled as exact rationals (`ℚ`); the
  arithmetic the code performs on them (addition, subtraction, comparison,
  multiplication by the literal factors) is the same.
* Python `dict` (insertion-ordered, string-keyed) is modelled as an
  association list `List (String × α)` with first-match lookup and an
  in-place update that appends on a missing key.
* `datetime.now()` is modelled by an explicit clock argument `now : Nat`
  threaded into the operations that read the wall clock; the lot number
  string is built from it exactly as the code builds it from the timestamp.
* A Python call that would raise an uncaught exception is modelled by an
  `Option` result being `none`.
-/

namespace UsineBoisson

/-- First-match lookup in an association list, modelling `k in d` / `d[k]`
for a Python dict. -/
def dictLookup {α : Type} (d : List (String × α)) (k : String) : Option α :=
  match d with
  | [] => none
  | (k', v) :: rest => if k' = k then some v else dictLookup rest k

/-- In-place update `d[k] = v` for a Python dict: replaces the binding when
the key is present (keeping its position), appends otherwise. -/
def dictSet {α : Type} (d : List (String × α)) (k : String) (v : α) :
    List (String × α) :=
  match d with
  | [] => [(k, v)]
  | (k', v') :: rest =>
    if k' = k then (k', v) :: rest else (k', v') :: dictSet rest k v

/-- Models Python `str.lower` for a single character, restricted to the
alphabet this codebase uses (ASCII letters plus the accented `É`/`é` of
"minéraux"). -/
def pyLowerChar (c : Char) : Char :=
  if c = 'É' then 'é' else c.toLower

/-- Models Python `str.lower` on the strings this codebase manipulates. -/
def pyLower (s : String) : String :=
  String.mk (s.data.map pyLowerChar)

/-- Is `p` a prefix of `l`?  Helper for the substring tests of the
validation predicates. -/
def listePrefixe : List Char → List Char → Bool
  | [], _ => true
  | _ :: _, [] => false
  | a :: as, b :: bs => a = b && listePrefixe as bs

/-- Does `p` occur as a contiguous sublist of `l`?  Models Python
`p in s` on strings. -/
def listeOccurrence (p : List Char) : List Char → Bool
  | [] => listePrefixe p []
  | c :: rest => listePrefixe p (c :: rest) || listeOccurrence p rest

/-- Models Python `p in s` (substring containment). -/
def contientStr (s p : String) : Bool :=
  listeOccurrence p.data s.data

/-- `Ingredient` from `boisson.py`: a named quantity with a unit. -/
structure Ingredient where
  nom : String
  quantite : ℚ
  unite : String
deriving Repr, DecidableEq

/-- The four concrete subclasses of the abstract `Boisson` class, as a
closed sum carrying each variant's extra field
(`Eau.est_gazeuse`, `Jus.pourcentage_fruits`, `Soda.taux_sucre`,
`BoissonEnergisante.taux_cafeine`). -/
inductive TypeBoisson where
  | eau (est_gazeuse : Bool)
  | jus (pourcentage_fruits : ℚ)
  | soda (taux_sucre : ℚ)
  | energisante (taux_cafeine : ℚ)
deriving Repr, DecidableEq

/-- Python's `__class__.__name__` for each beverage subclass. -/
def className : TypeBoisson → String
  | .eau _ => "Eau"
  | .jus _ => "Jus"
  | .soda _ => "Soda"
  | .energisante _ => "BoissonEnergisante"

/-- The common state of a `Boisson` instance: name, volume (litres),
ingredient list, and the production metadata that starts out `None`. -/
structure Boisson where
  typ : TypeBoisson
  nom : String
  volume : ℚ
  ingredients : List Ingredient
  numero_lot : Option String := none
  date_production : Option Nat := none
deriving Repr, DecidableEq

/-- `Boisson.definir_lot`: sets the lot number and the production
timestamp together. -/
def Boisson.definir_lot (b : Boisson) (numero : String) (now : Nat) : Boisson :=
  { b with numero_lot := some numero, date_production := some now }

/-- `calculer_cout_production`, dispatched over the four subclasses.
The float literals 0.5, 1.2, 1.5, 2.0 … of the source are the exact
rationals used here. -/
def Boisson.calculer_cout_production (b : Boisson) : ℚ :=
  match b.typ with
  | .eau est_gazeuse =>
    let cout_base := b.volume * (1 / 2)
    if est_gazeuse then cout_base * (6 / 5) else cout_base
  | .jus pourcentage_fruits =>
    let cout_base := b.volume * (3 / 2)
    cout_base * (1 + (pourcentage_fruits / 100) * (1 / 2))
  | .soda taux_sucre =>
    let cout_base := b.volume * 1
    cout_base * (1 + (taux_sucre / 100) * (1 / 10))
  | .energisante taux_cafeine =>
    let cout_base := b.volume * 2
    cout_base * (1 + (taux_cafeine / 1000) * (1 / 2))

/-- The fruit names `Jus.valider_ingredients` looks for. -/
def nomsFruits : List String := ["pomme", "orange", "raisin", "ananas", "mangue"]

/-- `valider_ingredients`, dispatched over the four subclasses:
`Eau` requires every (lowercased) ingredient name to be one of
`["eau", "minéraux", "co2"]`; `Jus` requires some name to contain a fruit;
`Soda` requires `"eau"`, `"sucre"`, `"co2"` as substrings of the
space-joined lowercased names; `BoissonEnergisante` requires a
caffeine-like ingredient. -/
def Boisson.valider_ingredients (b : Boisson) : Bool :=
  match b.typ with
  | .eau _ =>
    let ingredients_valides : List String := ["eau", "minéraux", "co2"]
    b.ingredients.all (fun ing => ingredients_valides.contains (pyLower ing.nom))
  | .jus _ =>
    b.ingredients.any (fun ing =>
      contientStr (pyLower ing.nom) "fruit" ||
      nomsFruits.any (fun fruit => contientStr (pyLower ing.nom) fruit))
  | .soda _ =>
    let ingredients_presents := b.ingredients.map (fun ing => pyLower ing.nom)
    let joint := String.intercalate " " ingredients_presents
    (["eau", "sucre", "co2"] : List String).all (fun requis => contientStr joint requis)
  | .energisante _ =>
    b.ingredients.any (fun ing =>
      contientStr (pyLower ing.nom) "cafeine" ||
      contientStr (pyLower ing.nom) "taurine" ||
      contientStr (pyLower ing.nom) "guarana")

/-- `Stock` from `usine.py`: ingredient quantities and alert thresholds,
both string-keyed dicts. -/
structure Stock where
  ingredients : List (String × ℚ)
  seuils_alerte : List (String × ℚ)
deriving Repr, DecidableEq

/-- The freshly constructed empty stock (`Stock.__init__`). -/
def Stock.vide : Stock := { ingredients := [], seuils_alerte := [] }

/-- `Stock.ajouter_ingredient`: adds to an existing quantity (threshold
untouched), or creates both entries. No sign check on `quantite`. -/
def Stock.ajouter_ingredient (st : Stock) (nom : String) (quantite : ℚ)
    (seuil_alerte : ℚ := 10) : Stock :=
  match dictLookup st.ingredients nom with
  | some v => { st with ingredients := dictSet st.ingredients nom (v + quantite) }
  | none =>
    { st with
      ingredients := st.ingredients ++ [(nom, quantite)],
      seuils_alerte := st.seuils_alerte ++ [(nom, seuil_alerte)] }

/-- `Stock.consommer_ingredient`: `False` if the name is absent; if the
available quantity is `≥` the requested one, decrement and return `True`;
otherwise `False` with no mutation. -/
def Stock.consommer_ingredient (st : Stock) (nom : String) (quantite : ℚ) :
    Bool × Stock :=
  match dictLookup st.ingredients nom with
  | none => (false, st)
  | some v =>
    if v ≥ quantite then
      (true, { st with ingredients := dictSet st.ingredients nom (v - quantite) })
    else (false, st)

/-- `Stock.verifier_disponibilite`: every required ingredient must be
present with at least the requested quantity. -/
def Stock.verifier_disponibilite (st : Stock)
    (ingredients_requis : List Ingredient) : Bool :=
  ingredients_requis.all (fun ingredient =>
    match dictLookup st.ingredients ingredient.nom with
    | none => false
    | some v => decide (ingredient.quantite ≤ v))

/-- `EtapeProduction`: a named, timed production step. -/
structure EtapeProduction where
  nom : String
  duree_minutes : Int
  description : String := ""
deriving Repr, DecidableEq

/-- `EtapeProduction.executer`: the base behaviour logs and returns
`True` unconditionally (no subclass overrides it in this repository). -/
def EtapeProduction.executer (_e : EtapeProduction) (_boisson : Boisson) : Bool :=
  true

/-- `ProcessusProduction`: an ordered list of steps. -/
structure ProcessusProduction where
  nom : String
  etapes : List EtapeProduction
deriving Repr, DecidableEq

/-- `ProcessusProduction.calculer_duree_totale`: sum of the step durations. -/
def ProcessusProduction.calculer_duree_totale (p : ProcessusProduction) : Int :=
  (p.etapes.map (fun etape => etape.duree_minutes)).sum

/-- `ProcessusProduction.executer_processus`: runs the steps in order,
stopping at the first failure. -/
def ProcessusProduction.executer_processus (p : ProcessusProduction)
    (boisson : Boisson) : Bool :=
  p.etapes.all (fun etape => etape.executer boisson)

/-- One entry of `LigneProduction.historique_production`. -/
structure EnregistrementProduction where
  boisson : String
  lot : Option String
  debut : Option Nat
  fin : Nat
  volume : ℚ
deriving Repr, DecidableEq

/-- `LigneProduction`: a production line with its activity flag, in-flight
beverage, start time and history. -/
structure LigneProduction where
  nom : String
  capacite_horaire : Int
  processus : ProcessusProduction
  est_active : Bool := false
  production_actuelle : Option Boisson := none
  heure_debut_production : Option Nat := none
  historique_production : List EnregistrementProduction := []
deriving Repr, DecidableEq

/-- `LigneProduction.demarrer_production`: fails if already active;
otherwise activates the line, stamps the beverage with a lot number built
from the line name and the clock, and returns the result of running the
process.  The updated beverage is returned as well, since the Python code
mutates it in place. -/
def LigneProduction.demarrer_production (l : LigneProduction) (boisson : Boisson)
    (now : Nat) : Bool × LigneProduction × Boisson :=
  if l.est_active then (false, l, boisson)
  else
    let numero_lot := l.nom ++ "-" ++ toString now
    let boisson' := boisson.definir_lot numero_lot now
    let l' := { l with
      est_active := true,
      production_actuelle := some boisson',
      heure_debut_production := some now }
    (l'.processus.executer_processus boisson', l', boisson')

/-- `LigneProduction.terminer_production`: `None` beverage if the line is
idle; otherwise records a history entry, resets the line and returns the
produced beverage.  The outer `Option` is `none` exactly when the Python
code would raise (`production_actuelle` is `None` while the line is
active, so accessing `.nom` on it fails). -/
def LigneProduction.terminer_production (l : LigneProduction) (now : Nat) :
    Option (Option Boisson × LigneProduction) :=
  if l.est_active = false then some (none, l)
  else
    match l.production_actuelle with
    | none => none
    | some boisson_produite =>
      let enr : EnregistrementProduction :=
        { boisson := boisson_produite.nom,
          lot := boisson_produite.numero_lot,
          debut := l.heure_debut_production,
          fin := now,
          volume := boisson_produite.volume }
      let l' := { l with
        est_active := false,
        production_actuelle := none,
        heure_debut_production := none,
        historique_production := l.historique_production ++ [enr] }
      some (some boisson_produite, l')

/-- `Usine`: the factory state. -/
structure Usine where
  nom : String
  lignes_production : List LigneProduction := []
  stock : Stock := Stock.vide
  production_journaliere : List Boisson := []
  objectifs_production : List (String × Int) := []
deriving Repr, DecidableEq

/-- `Usine.ajouter_ligne_production`: appends a line. -/
def Usine.ajouter_ligne_production (u : Usine) (ligne : LigneProduction) : Usine :=
  { u with lignes_production := u.lignes_production ++ [ligne] }

/-- The `for ligne in self.lignes_production: if not ligne.est_active: …
break` scan of `produire_boisson`: index and value of the first idle
line, if any. -/
def premiereLigneLibre : List LigneProduction → Option (Nat × LigneProduction)
  | [] => none
  | l :: rest =>
    if l.est_active then
      (premiereLigneLibre rest).map (fun p => (p.1 + 1, p.2))
    else some (0, l)

/-- The ingredient-consumption loop of `produire_boisson`: consumes the
ingredients one by one, stopping at the first failure and keeping the
earlier deductions (no rollback). -/
def consommerListe (st : Stock) : List Ingredient → Bool × Stock
  | [] => (true, st)
  | ingredient :: reste =>
    let r := st.consommer_ingredient ingredient.nom ingredient.quantite
    if r.1 then consommerListe r.2 reste else (false, r.2)

/-- `Usine.produire_boisson`: check availability, pick the first idle
line, consume the ingredients, start production on the line and finish
it, appending the produced beverage to the daily output.  The `Option`
is `none` exactly when the underlying Python call would raise. -/
def Usine.produire_boisson (u : Usine) (boisson : Boisson) (now : Nat) :
    Option (Bool × Usine) :=
  if u.stock.verifier_disponibilite boisson.ingredients = false then
    some (false, u)
  else
    match premiereLigneLibre u.lignes_production with
    | none => some (false, u)
    | some (i, ligne_disponible) =>
      match consommerListe u.stock boisson.ingredients with
      | (false, st') => some (false, { u with stock := st' })
      | (true, st') =>
        let r := ligne_disponible.demarrer_production boisson now
        let u' := { u with
          stock := st',
          lignes_production := u.lignes_production.set i r.2.1 }
        if r.1 then
          match r.2.1.terminer_production now with
          | none => none
          | some (boisson_produite, l'') =>
            let u'' := { u' with
              lignes_production := u'.lignes_production.set i l'' }
            match boisson_produite with
            | some bp =>
              some (true, { u'' with
                production_journaliere := u''.production_journaliere ++ [bp] })
            | none => some (false, u'')
        else some (false, u')

/-- The per-class counting loop of `obtenir_statistiques`:
`types[t] = types.get(t, 0) + 1` over the daily output. -/
def compterTypes : List Boisson → List (String × Nat) → List (String × Nat)
  | [], acc => acc
  | b :: reste, acc =>
    let t := className b.typ
    compterTypes reste (dictSet acc t ((dictLookup acc t).getD 0 + 1))

/-- The record returned by `Usine.obtenir_statistiques`. -/
structure Statistiques where
  total_boissons_produites : Nat
  lignes_actives : Nat
  total_lignes : Nat
  types_boissons : List (String × Nat)
deriving Repr, DecidableEq

/-- `Usine.obtenir_statistiques`: totals plus the per-class-name count of
the daily output. -/
def Usine.obtenir_statistiques (u : Usine) : Statistiques :=
  { total_boissons_produites := u.production_journaliere.length,
    lignes_actives := (u.lignes_production.filter (fun l => l.est_active)).length,
    total_lignes := u.lignes_production.length,
    types_boissons := compterTypes u.production_journaliere [] }

/-- One call against a `Stock`: either `ajouter_ingredient` or
`consommer_ingredient` (whose boolean result is discarded). -/
inductive OpStock where
  | ajouter (nom : String) (quantite : ℚ) (seuil : ℚ)
  | consommer (nom : String) (quantite : ℚ)

/-- Applies one stock operation. -/
def OpStock.appliquer (st : Stock) : OpStock → Stock
  | .ajouter nom q seuil => st.ajouter_ingredient nom q seuil
  | .consommer nom q => (st.consommer_ingredient nom q).2

/-- The stock reached from the empty stock by a sequence of calls. -/
def execOpsStock (ops : List OpStock) : Stock :=
  ops.foldl OpStock.appliquer Stock.vide

/-- An operation whose `ajouter_ingredient` quantity argument (if it is
one) is nonnegative. -/
def OpStock.quantiteAjoutPositive : OpStock → Bool
  | .ajouter _ q _ => decide (0 ≤ q)
  | .consommer _ _ => true


/-! ### Concrete fixtures for the scenario claims (mirroring the test
fixtures of `tests.py`) -/

/-- A base production step. -/
def etapeDemo : EtapeProduction := { nom := "Embouteillage", duree_minutes := 5 }

/-- A one-step process. -/
def processusDemo : ProcessusProduction := { nom := "ProcessusEau", etapes := [etapeDemo] }

/-- A freshly constructed (idle) line. -/
def ligneDemo : LigneProduction :=
  { nom := "Ligne1", capacite_horaire := 100, processus := processusDemo }

/-- The same line, already active. -/
def ligneOccupee : LigneProduction := { ligneDemo with est_active := true }

/-- Stock with eau: 100 and minéraux: 50. -/
def stockDemo : Stock :=
  (Stock.vide.ajouter_ingredient "eau" 100 10).ajouter_ingredient "minéraux" 50 10

/-- A one-line factory over `stockDemo`. -/
def usineDemo : Usine :=
  { nom := "UsineTest", lignes_production := [ligneDemo], stock := stockDemo }

/-- A Water beverage requiring eau: 10 and minéraux: 5. -/
def eauDemo : Boisson :=
  { typ := .eau false, nom := "Eau Test", volume := 1,
    ingredients := [{ nom := "eau", quantite := 10, unite := "L" },
                    { nom := "minéraux", quantite := 5, unite := "L" }] }

/-- The factory state after producing `eauDemo`. -/
def apresC1 : Usine := ((usineDemo.produire_boisson eauDemo 0).getD (false, usineDemo)).2

/-- A Water beverage requiring eau: 200, more than the stock holds. -/
def eauExcessive : Boisson :=
  { typ := .eau false, nom := "Eau Excessive", volume := 1,
    ingredients := [{ nom := "eau", quantite := 200, unite := "L" }] }

/-- First of the two Water beverages of the statistics scenario. -/
def eauUne : Boisson :=
  { typ := .eau false, nom := "Eau 1", volume := 1,
    ingredients := [{ nom := "eau", quantite := 10, unite := "L" }] }

/-- Second of the two Water beverages of the statistics scenario. -/
def eauDeux : Boisson :=
  { typ := .eau false, nom := "Eau 2", volume := 1,
    ingredients := [{ nom := "minéraux", quantite := 5, unite := "L" }] }

/-- The factory state after producing `eauUne`. -/
def apresPremiereEau : Usine :=
  ((usineDemo.produire_boisson eauUne 0).getD (false, usineDemo)).2

/-- The factory state after producing `eauUne` then `eauDeux`. -/
def apresSecondeEau : Usine :=
  ((apresPremiereEau.produire_boisson eauDeux 1).getD (false, apresPremiereEau)).2

/-- A Water beverage whose ingredients carry the English names. -/
def eauImportee : Boisson :=
  { typ := .eau false, nom := "Imported Water", volume := 1,
    ingredients := [{ nom := "water", quantite := 10, unite := "L" },
                    { nom := "minerals", quantite := 5, unite := "g" }] }

/-- A stock holding a negative quantity, reached by a single (accepted)
negative addition. -/
def stockNegatif : Stock := Stock.vide.ajouter_ingredient "eau" (-10) 10

/-- A single negative addition: the sequence refuting the nonnegativity
invariant as universally stated. -/
def opsNegatives : List OpStock := [OpStock.ajouter "x" (-5) 10]

/-- A sequence of calls with nonnegative additions. -/
def opsPositives : List OpStock :=
  [OpStock.ajouter "eau" 100 10, OpStock.consommer "sucre" 5]

/-! ### Association-list lemmas -/

theorem dictLookup_dictSet_self {α : Type} (d : List (String × α)) (k : String) (v : α) :
    dictLookup (dictSet d k v) k = some v := by
  induction d with
  | nil => simp [dictSet, dictLookup]
  | cons hd tl ih =>
    obtain ⟨a, b⟩ := hd
    by_cases h : a = k <;> simp [dictSet, dictLookup, h, ih]

theorem dictLookup_dictSet_autre {α : Type} (d : List (String × α)) (k x : String) (v : α)
    (h : x ≠ k) : dictLookup (dictSet d k v) x = dictLookup d x := by
  induction d with
  | nil => simp [dictSet, dictLookup, Ne.symm h]
  | cons hd tl ih =>
    obtain ⟨a, b⟩ := hd
    by_cases hk : a = k
    · subst hk
      simp [dictSet, dictLookup, Ne.symm h]
    · by_cases hx : a = x <;> simp [dictSet, dictLookup, hk, hx, ih, h]

theorem mem_of_dictLookup_eq_some {α : Type} {d : List (String × α)} {k : String} {v : α}
    (h : dictLookup d k = some v) : (k, v) ∈ d := by
  induction d with
  | nil => simp [dictLookup] at h
  | cons hd tl ih =>
    obtain ⟨a, b⟩ := hd
    by_cases hk : a = k
    · simp [dictLookup, hk] at h
      rw [hk, h]
      exact List.mem_cons_self _ _
    · simp [dictLookup, hk] at h
      exact List.mem_cons_of_mem _ (ih h)

theorem mem_dictSet {α : Type} {d : List (String × α)} {k : String} {v : α} {p : String × α}
    (h : p ∈ dictSet d k v) : p ∈ d ∨ p = (k, v) := by
  induction d with
  | nil => simp [dictSet] at h; simp [h]
  | cons hd tl ih =>
    obtain ⟨a, b⟩ := hd
    by_cases hk : a = k
    · simp only [dictSet, hk, if_pos rfl] at h
      rcases List.mem_cons.mp h with h | h
      · right; exact h
      · left; exact List.mem_cons_of_mem _ h
    · simp only [dictSet, if_neg hk] at h
      rcases List.mem_cons.mp h with h | h
      · left; rw [h]; exact List.mem_cons_self _ _
      · rcases ih h with h' | h'
        · left; exact List.mem_cons_of_mem _ h'
        · right; exact h'

/-! ### Preservation of nonnegativity by the stock operations -/

theorem ajouter_preserve_nonneg (st : Stock) (nom : String) (q s : ℚ)
    (hq : 0 ≤ q) (hst : ∀ p ∈ st.ingredients, 0 ≤ p.2) :
    ∀ p ∈ (st.ajouter_ingredient nom q s).ingredients, 0 ≤ p.2 := by
  intro p hp
  unfold Stock.ajouter_ingredient at hp
  cases hlook : dictLookup st.ingredients nom with
  | none =>
    rw [hlook] at hp
    simp at hp
    rcases hp with hp | hp
    · exact hst p hp
    · rw [hp]; exact hq
  | some v =>
    rw [hlook] at hp
    simp at hp
    rcases mem_dictSet hp with hp' | hp'
    · exact hst p hp'
    · rw [hp']
      have hv : 0 ≤ v := hst (nom, v) (mem_of_dictLookup_eq_some hlook)
      simpa using add_nonneg hv hq

theorem consommer_preserve_nonneg (st : Stock) (nom : String) (q : ℚ)
    (hst : ∀ p ∈ st.ingredients, 0 ≤ p.2) :
    ∀ p ∈ (st.consommer_ingredient nom q).2.ingredients, 0 ≤ p.2 := by
  intro p hp
  unfold Stock.consommer_ingredient at hp
  cases hlook : dictLookup st.ingredients nom with
  | none => rw [hlook] at hp; exact hst p hp
  | some v =>
    rw [hlook] at hp
    by_cases hge : v ≥ q
    · simp [hge] at hp
      rcases mem_dictSet hp with hp' | hp'
      · exact hst p hp'
      · rw [hp']
        simpa using sub_nonneg.mpr hge
    · simp [hge] at hp
      exact hst p hp


theorem execOps_preserve_nonneg (ops : List OpStock) (st : Stock)
    (hst : ∀ p ∈ st.ingredients, 0 ≤ p.2)
    (hops : ∀ op ∈ ops, op.quantiteAjoutPositive = true) :
    ∀ p ∈ (ops.foldl OpStock.appliquer st).ingredients, 0 ≤ p.2 := by
  induction ops generalizing st with
  | nil => simpa using hst
  | cons op reste ih =>
    simp only [List.foldl_cons]
    refine ih (OpStock.appliquer st op) ?_ (fun o ho => hops o (List.mem_cons_of_mem _ ho))
    have hop := hops op (List.mem_cons_self _ _)
    cases op with
    | ajouter nom q seuil =>
      simp only [OpStock.quantiteAjoutPositive, decide_eq_true_eq] at hop
      exact ajouter_preserve_nonneg st nom q seuil hop hst
    | consommer nom q =>
      exact consommer_preserve_nonneg st nom q hst


/-- The process of the base design always succeeds, because
`EtapeProduction.executer` returns `True` unconditionally. -/
theorem executer_processus_toujours_vrai (p : ProcessusProduction) (b : Boisson) :
    p.executer_processus b = true := by
  simp [ProcessusProduction.executer_processus, EtapeProduction.executer, List.all_eq_true]

/-- When every line is active, the idle-line scan finds nothing. -/
theorem premiereLigneLibre_toutes_actives (ls : List LigneProduction)
    (h : ∀ l ∈ ls, l.est_active = true) : premiereLigneLibre ls = none := by
  induction ls with
  | nil => rfl
  | cons l rest ih =>
    have hl := h l (List.mem_cons_self _ _)
    simp [premiereLigneLibre, hl, ih (fun x hx => h x (List.mem_cons_of_mem _ hx))]

/-- The idle-line scan returns a line that is indeed idle. -/
theorem premiereLigneLibre_inactive {ls : List LigneProduction} {i : Nat}
    {l : LigneProduction} (h : premiereLigneLibre ls = some (i, l)) :
    l.est_active = false := by
  induction ls generalizing i with
  | nil => simp [premiereLigneLibre] at h
  | cons hd rest ih =>
    by_cases ha : hd.est_active
    · simp [premiereLigneLibre, ha] at h
      match hr : premiereLigneLibre rest with
      | none => rw [hr] at h; simp at h
      | some (j, l') =>
        rw [hr] at h
        simp at h
        obtain ⟨a, ⟨hja, hl'⟩, hai⟩ := h
        rw [hl'] at hr
        exact ih hr
    · simp [premiereLigneLibre, ha] at h
      rw [← h.2]
      simpa using ha


/-- C6: `Stock.consommer_ingredient` returns `false` and leaves the stock
unchanged when the name is absent or the requested quantity exceeds the
available amount; otherwise it decrements the named quantity by exactly
the requested amount (other quantities untouched) and returns `true`.
It is a total function, so it never raises. -/
theorem consommer_ingredient_contrat (st : Stock) (nom : String) (q : ℚ) :
    (dictLookup st.ingredients nom = none → st.consommer_ingredient nom q = (false, st)) ∧
    ∀ v, dictLookup st.ingredients nom = some v →
      (v < q → st.consommer_ingredient nom q = (false, st)) ∧
      (q ≤ v →
        (st.consommer_ingredient nom q).1 = true ∧
        dictLookup (st.consommer_ingredient nom q).2.ingredients nom = some (v - q) ∧
        ∀ x, x ≠ nom →
          dictLookup (st.consommer_ingredient nom q).2.ingredients x =
            dictLookup st.ingredients x) := by
  refine ⟨fun h => by simp [Stock.consommer_ingredient, h], fun v hv => ⟨?_, ?_⟩⟩
  · intro hlt
    simp [Stock.consommer_ingredient, hv, ge_iff_le, not_le.mpr hlt]
  · intro hle
    refine ⟨?_, ?_, ?_⟩
    · simp [Stock.consommer_ingredient, hv, ge_iff_le, hle]
    · simp [Stock.consommer_ingredient, hv, ge_iff_le, hle, dictLookup_dictSet_self]
    · intro x hx
      simp [Stock.consommer_ingredient, hv, ge_iff_le, hle,
        dictLookup_dictSet_autre _ _ _ _ hx]

/-- Witness for C6: consuming eau: 10 from stock eau: 100 succeeds and
leaves eau: 90. -/
theorem consommer_ingredient_contrat_temoin :
    (stockDemo.consommer_ingredient "eau" 10).1 = true ∧
    dictLookup (stockDemo.consommer_ingredient "eau" 10).2.ingredients "eau" =
      some (100 - 10) :=
  have h := ((consommer_ingredient_contrat stockDemo "eau" 10).2 100 rfl).2 (by norm_num)
  ⟨h.1, h.2.1⟩


/-- C9 counterexample: a stock can hold a negative quantity (negative
additions are accepted), and then consuming a negative amount `q` with
`q` above the stored value returns `false` instead of `true`. -/
theorem consommer_negatif_contre_exemple :
    dictLookup stockNegatif.ingredients "eau" = some (-10) ∧
    ((-5 : ℚ) ≤ 0) ∧
    (stockNegatif.consommer_ingredient "eau" (-5)).1 = false ∧
    (stockNegatif.consommer_ingredient "eau" (-5)).2 = stockNegatif := by
  refine ⟨rfl, by norm_num, ?_, ?_⟩ <;>
    simp +decide [stockNegatif, Stock.vide, Stock.ajouter_ingredient,
      Stock.consommer_ingredient, dictLookup]

/-- C9 amended: if the stored quantity `v` of `nom` satisfies `q ≤ v`
(automatic when `v` is nonnegative), consuming a quantity `q ≤ 0`
succeeds and raises the stored quantity from `v` to `v - q ≥ v`. -/
theorem consommer_negatif_augmente (st : Stock) (nom : String) (q v : ℚ)
    (hlook : dictLookup st.ingredients nom = some v) (hq : q ≤ 0) (hv : q ≤ v) :
    (st.consommer_ingredient nom q).1 = true ∧
    dictLookup (st.consommer_ingredient nom q).2.ingredients nom = some (v - q) ∧
    v ≤ v - q := by
  refine ⟨?_, ?_, by linarith⟩ <;>
    simp [Stock.consommer_ingredient, hlook, ge_iff_le, hv, dictLookup_dictSet_self]

/-- Witness for the amended C9: consuming eau: -5 from stock eau: 100
succeeds and stores 100 - (-5). -/
theorem consommer_negatif_augmente_temoin :
    (stockDemo.consommer_ingredient "eau" (-5)).1 = true ∧
    dictLookup (stockDemo.consommer_ingredient "eau" (-5)).2.ingredients "eau" =
      some (100 - (-5)) ∧
    (100 : ℚ) ≤ 100 - (-5) :=
  consommer_negatif_augmente stockDemo "eau" (-5) 100 rfl (by norm_num) (by norm_num)

/-- C3 counterexample: from the empty stock, a single `ajouter_ingredient`
call with quantity -5 (accepted without sign validation) reaches a state
whose recorded quantity is negative. -/
theorem stock_negatif_atteignable :
    ("x", (-5 : ℚ)) ∈ (execOpsStock opsNegatives).ingredients ∧
    ¬ (0 : ℚ) ≤ (-5 : ℚ) := by
  constructor
  · simp +decide [execOpsStock, opsNegatives, OpStock.appliquer, Stock.vide,
      Stock.ajouter_ingredient, dictLookup]
  · norm_num

/-- C3 amended: in every stock state reachable from the empty stock by
`ajouter_ingredient` and `consommer_ingredient` calls whose addition
quantities are nonnegative, every recorded quantity is nonnegative
(consumption of arbitrary quantities, even negative ones, preserves
this). -/
theorem stock_invariant_nonneg (ops : List OpStock)
    (h : ∀ op ∈ ops, op.quantiteAjoutPositive = true) :
    ∀ p ∈ (execOpsStock ops).ingredients, 0 ≤ p.2 := by
  have hvide : ∀ p ∈ Stock.vide.ingredients, 0 ≤ p.2 := by simp [Stock.vide]
  exact execOps_preserve_nonneg ops Stock.vide hvide h

/-- Witness for the amended C3: after adding eau: 100 and attempting to
consume an absent ingredient, the recorded eau quantity 100 is
nonnegative. -/
theorem stock_invariant_nonneg_temoin : (0 : ℚ) ≤ 100 :=
  stock_invariant_nonneg opsPositives (by decide) ("eau", 100) (by decide)


/-- C4 counterexample: a Water beverage whose ingredients are named
"water" and "minerals" does NOT pass validation — the accepted list of
`Eau.valider_ingredients` holds only the French names
"eau", "minéraux" (and "co2"). -/
theorem valider_ingredients_anglais_echoue :
    eauImportee.typ = TypeBoisson.eau false ∧
    eauImportee.valider_ingredients = false := by
  constructor
  · rfl
  · decide

/-- C4 amended: for every Water beverage, `valider_ingredients` returns
`true` exactly when every ingredient's lowercased name is one of
"eau", "minéraux", "co2"; the English names "water" and "minerals"
are not accepted. -/
theorem valider_ingredients_eau_caracterisation (b : Boisson) (g : Bool)
    (h : b.typ = TypeBoisson.eau g) :
    (b.valider_ingredients = true ↔
      ∀ ing ∈ b.ingredients,
        pyLower ing.nom ∈ (["eau", "minéraux", "co2"] : List String)) := by
  simp [Boisson.valider_ingredients, h, List.all_eq_true, List.elem_iff]

/-- Witness for the amended C4: a Water beverage with ingredients "eau"
and "minéraux" passes validation. -/
theorem valider_ingredients_eau_temoin : eauDemo.valider_ingredients = true :=
  (valider_ingredients_eau_caracterisation eauDemo false rfl).mpr (by decide)

/-- C8: for identical volume and ingredient lists, the carbonated Water
beverage's production cost is strictly greater than the non-carbonated
one's (volume * 0.5 * 1.2 versus volume * 0.5).  The spec's data model
declares `volume > 0` for every beverage (spec §3), which the strict
inequality needs. -/
theorem cout_eau_gazeuse_superieur (nom : String) (volume : ℚ)
    (ings : List Ingredient) (lot : Option String) (dp : Option Nat)
    (h : 0 < volume) :
    Boisson.calculer_cout_production
        { typ := .eau false, nom := nom, volume := volume, ingredients := ings,
          numero_lot := lot, date_production := dp } <
      Boisson.calculer_cout_production
        { typ := .eau true, nom := nom, volume := volume, ingredients := ings,
          numero_lot := lot, date_production := dp } := by
  simp [Boisson.calculer_cout_production]
  nlinarith

/-- Witness for C8: at volume 1, cost 1/2 < 3/5. -/
theorem cout_eau_gazeuse_superieur_temoin :
    Boisson.calculer_cout_production
        { typ := .eau false, nom := "Eau", volume := 1, ingredients := [],
          numero_lot := none, date_production := none } <
      Boisson.calculer_cout_production
        { typ := .eau true, nom := "Eau", volume := 1, ingredients := [],
          numero_lot := none, date_production := none } :=
  cout_eau_gazeuse_superieur "Eau" 1 [] none none (by norm_num)


/-- C1: on a one-idle-line factory with stock eau: 100, minéraux: 50,
producing a Water beverage requiring eau: 10, minéraux: 5 returns `true`,
leaves the stock at eau: 90, minéraux: 45, and leaves the daily output
with exactly one beverage. -/
theorem produire_scenario_nominal :
    usineDemo.produire_boisson eauDemo 0 = some (true, apresC1) ∧
    dictLookup apresC1.stock.ingredients "eau" = some 90 ∧
    dictLookup apresC1.stock.ingredients "minéraux" = some 45 ∧
    apresC1.production_journaliere.length = 1 := by
  refine ⟨?_, ?_, ?_, ?_⟩ <;>
    simp +decide +arith [usineDemo, eauDemo, stockDemo, ligneDemo, processusDemo,
      etapeDemo, apresC1, Usine.produire_boisson, Stock.verifier_disponibilite,
      Stock.vide, Stock.ajouter_ingredient, Stock.consommer_ingredient, dictLookup,
      dictSet, premiereLigneLibre, consommerListe, LigneProduction.demarrer_production,
      LigneProduction.terminer_production, ProcessusProduction.executer_processus,
      EtapeProduction.executer, Boisson.definir_lot, List.all, List.set] <;>
    norm_num

/-- C5: producing two Water beverages sequentially through the one-line
factory yields statistics with 2 total produced beverages and an entry of
2 under the water class's name (the key produced by `__class__.__name__`,
which is `"Eau"` for the class the spec renders as Water). -/
theorem statistiques_deux_productions :
    apresSecondeEau.obtenir_statistiques.total_boissons_produites = 2 ∧
    dictLookup apresSecondeEau.obtenir_statistiques.types_boissons
      (className (TypeBoisson.eau false)) = some 2 := by
  refine ⟨?_, ?_⟩ <;>
    simp +decide +arith [apresSecondeEau, apresPremiereEau, usineDemo, eauUne, eauDeux,
      stockDemo, ligneDemo, processusDemo, etapeDemo, Usine.produire_boisson,
      Usine.obtenir_statistiques, compterTypes, className, Stock.verifier_disponibilite,
      Stock.vide, Stock.ajouter_ingredient, Stock.consommer_ingredient, dictLookup,
      dictSet, premiereLigneLibre, consommerListe, LigneProduction.demarrer_production,
      LigneProduction.terminer_production, ProcessusProduction.executer_processus,
      EtapeProduction.executer, Boisson.definir_lot, List.all, List.set]


/-- C2: when the availability check fails or every line is active,
`produire_boisson` returns `false` and the whole factory state — stock,
lines (state and history) and daily output — is returned unchanged. -/
theorem produire_echec_sans_mutation (u : Usine) (b : Boisson) (now : Nat)
    (h : u.stock.verifier_disponibilite b.ingredients = false ∨
         ∀ l ∈ u.lignes_production, l.est_active = true) :
    u.produire_boisson b now = some (false, u) := by
  by_cases hv : u.stock.verifier_disponibilite b.ingredients = false
  · simp [Usine.produire_boisson, hv]
  · have hlines : ∀ l ∈ u.lignes_production, l.est_active = true := by
      rcases h with h | h
      · exact absurd h hv
      · exact h
    simp [Usine.produire_boisson, hv, premiereLigneLibre_toutes_actives _ hlines]

/-- Witness for C2: a beverage requiring eau: 200 against stock eau: 100
is rejected with the factory unchanged (in particular the stock is
unchanged and the daily output stays empty). -/
theorem produire_echec_sans_mutation_temoin :
    usineDemo.produire_boisson eauExcessive 0 = some (false, usineDemo) :=
  produire_echec_sans_mutation usineDemo eauExcessive 0 (Or.inl (by decide))


/-- C7: if `demarrer_production` succeeds, the beverage's lot number is
set and the line is active; a subsequent `terminer_production` leaves the
line inactive with no current beverage and a history exactly one record
longer; and `demarrer_production` on an already-active line returns
`false` with no state change. -/
theorem ligne_cycle_production (l : LigneProduction) (b : Boisson) (t1 t2 : Nat) :
    ((l.demarrer_production b t1).1 = true →
      (l.demarrer_production b t1).2.2.numero_lot ≠ none ∧
      (l.demarrer_production b t1).2.1.est_active = true ∧
      ∃ lfin,
        (l.demarrer_production b t1).2.1.terminer_production t2 =
          some (some (l.demarrer_production b t1).2.2, lfin) ∧
        lfin.est_active = false ∧ lfin.production_actuelle = none ∧
        lfin.historique_production.length = l.historique_production.length + 1) ∧
    (l.est_active = true → l.demarrer_production b t1 = (false, l, b)) := by
  constructor
  · intro hok
    by_cases ha : l.est_active
    · simp [LigneProduction.demarrer_production, ha] at hok
    · refine ⟨?_, ?_, ?_⟩
      · simp [LigneProduction.demarrer_production, ha, Boisson.definir_lot]
      · simp [LigneProduction.demarrer_production, ha]
      · simp [LigneProduction.demarrer_production, ha,
          LigneProduction.terminer_production, Boisson.definir_lot,
          List.length_append]
  · intro ha
    simp [LigneProduction.demarrer_production, ha]


/-- Witness for C7: starting production on the idle demo line stamps a
lot number and activates the line; starting on the active copy of the
line fails with no state change. -/
theorem ligne_cycle_production_temoin :
    (ligneDemo.demarrer_production eauDemo 0).2.2.numero_lot ≠ none ∧
    (ligneDemo.demarrer_production eauDemo 0).2.1.est_active = true ∧
    ligneOccupee.demarrer_production eauDemo 0 = (false, ligneOccupee, eauDemo) :=
  have h1 := (ligne_cycle_production ligneDemo eauDemo 0 1).1 (by decide)
  ⟨h1.1, h1.2.1, (ligne_cycle_production ligneOccupee eauDemo 0 0).2 rfl⟩

/-- Starting production on an idle line succeeds (the base process always
succeeds) and leaves the line active, holding the stamped beverage. -/
theorem demarrer_production_inactive (l : LigneProduction) (b : Boisson) (t : Nat)
    (ha : l.est_active = false) :
    (l.demarrer_production b t).1 = true ∧
    (l.demarrer_production b t).2.1.est_active = true ∧
    (l.demarrer_production b t).2.1.production_actuelle =
      some (l.demarrer_production b t).2.2 := by
  simp [LigneProduction.demarrer_production, ha, executer_processus_toujours_vrai]

/-- Finishing production on an active line holding a beverage returns it
and resets the line to idle. -/
theorem terminer_production_reinitialise (l : LigneProduction) (t : Nat) (bp : Boisson)
    (ha : l.est_active = true) (hp : l.production_actuelle = some bp) :
    ∃ lfin, l.terminer_production t = some (some bp, lfin) ∧ lfin.est_active = false := by
  simp [LigneProduction.terminer_production, ha, hp]

/-- C10: if every line of the factory is idle, then after
`produire_boisson` — whatever its boolean result — every line is idle
again: the base `EtapeProduction.executer` always returns `true`, so a
successful start is always followed by `terminer_production`, and the
stuck-active state is unreachable through `produire_boisson`. -/
theorem produire_preserve_lignes_inactives (u : Usine) (b : Boisson) (now : Nat)
    (h : ∀ l ∈ u.lignes_production, l.est_active = false) :
    ∃ res u2, u.produire_boisson b now = some (res, u2) ∧
      ∀ l ∈ u2.lignes_production, l.est_active = false := by
  by_cases hv : u.stock.verifier_disponibilite b.ingredients = false
  · exact ⟨false, u, by simp [Usine.produire_boisson, hv], h⟩
  · cases hls : u.lignes_production with
    | nil =>
      refine ⟨false, u, ?_, h⟩
      have hnone : premiereLigneLibre u.lignes_production = none := by rw [hls]; rfl
      simp [Usine.produire_boisson, hv, hnone]
    | cons l0 rest =>
      have hl0 : l0.est_active = false := h l0 (by rw [hls]; exact List.mem_cons_self _ _)
      have hfirst : premiereLigneLibre u.lignes_production = some (0, l0) := by
        rw [hls]; simp [premiereLigneLibre, hl0]
      obtain ⟨⟨ok1, l1, b1⟩, hr⟩ : ∃ p, l0.demarrer_production b now = p := ⟨_, rfl⟩
      have hd := demarrer_production_inactive l0 b now hl0
      rw [hr] at hd
      simp only at hd
      obtain ⟨hok1, hl1a, hl1p⟩ := hd
      subst hok1
      obtain ⟨lfin, hterm, hfin⟩ := terminer_production_reinitialise l1 now b1 hl1a hl1p
      obtain ⟨⟨ok0, st'⟩, hcons⟩ : ∃ p, consommerListe u.stock b.ingredients = p := ⟨_, rfl⟩
      cases ok0 with
      | false =>
        refine ⟨false, { u with stock := st' }, ?_, h⟩
        simp [Usine.produire_boisson, hv, hfirst, hcons]
      | true =>
        have hprod : u.produire_boisson b now = some (true,
            { u with
              stock := st',
              lignes_production := (u.lignes_production.set 0 l1).set 0 lfin,
              production_journaliere := u.production_journaliere ++ [b1] }) := by
          simp [Usine.produire_boisson, hv, hfirst, hcons, hr, hterm]
        refine ⟨true, _, hprod, ?_⟩
        intro x hx
        simp only [List.set_set] at hx
        rcases List.mem_or_eq_of_mem_set hx with h1 | h1
        · exact h x h1
        · rw [h1]; exact hfin


/-- Witness for C10: producing on the all-idle demo factory returns a
result (no crash), as the theorem guarantees. -/
theorem produire_preserve_lignes_inactives_temoin :
    (usineDemo.produire_boisson eauDemo 0).isSome = true := by
  obtain ⟨res, u2, h1, h2⟩ :=
    produire_preserve_lignes_inactives usineDemo eauDemo 0 (by decide)
  rw [h1]
  rfl

end UsineBoisson
